import Mathlib

/-!
Verification of the Amara QUO email-processing pipeline.

Shallow embedding of:
* `src/lib/kv-client.ts` — the KV store view (`getEmail`, `updateEmailStatus`),
* `src/lib/services/processor.ts` — the orchestrator (`processEmail`, `retryEmail`,
  `shouldRetry`, `getErrorMessage`),
* the reset route (`/app/api/process/reset/[id]/route.ts`),
* `src/lib/services/email/email-service.ts` — the delivery gateway (`sendResponse`),
* `src/lib/services/email/rich_email_renderer.ts` — the markdown renderer,
* `src/lib/services/email/email-wrapper.ts` — the plain-text derivation.

Async store operations are modelled as pure state transformers on the KV slice of a
single email id; `new Date()` timestamps are passed in explicitly as strings; the
outcome of the external LLM call is a parameter of type `Except Thrown LLMResponse`.
-/

/-! ### Data model (kv-client.ts) -/

inductive EmailStatus where
  | pending
  | processing
  | completed
  | failed
  | manualReview
deriving DecidableEq

def statusToString : EmailStatus → String
  | .pending => "pending"
  | .processing => "processing"
  | .completed => "completed"
  | .failed => "failed"
  | .manualReview => "manual-review"

inductive DeliveryStatus where
  | pending
  | sent
  | failed
deriving DecidableEq

structure TokenUsage where
  prompt : Nat
  completion : Nat
  total : Nat
deriving DecidableEq

/-- `EmailRecord` from kv-client.ts. The TS fields `from` and `to` are Lean keywords
and are modelled as `fromField` and `toField`. -/
structure EmailRecord where
  id : String
  threadId : String
  subject : String
  fromField : String
  toField : String
  date : String
  snippet : String
  body : String
  receivedAt : String
  historyId : Nat
deriving DecidableEq

/-- The JSON object stored under the `gmail:email:{id}:status` key. Every field is
optional (the stored object can be `{}` after the `|| {}` fallback in
`updateEmailStatus`). -/
structure StatusData where
  status : Option EmailStatus := none
  processedAt : Option String := none
  error : Option String := none
  response : Option String := none
  category : Option String := none
  tokenUsage : Option TokenUsage := none
  processingTime : Option Nat := none
  deliveryStatus : Option DeliveryStatus := none
  deliveredAt : Option String := none
deriving DecidableEq

structure TokenStats where
  totalPrompt : Nat
  totalCompletion : Nat
  totalTokens : Nat
  emailsProcessed : Nat
  lastUpdated : String
deriving DecidableEq

/-- The KV-store slice relevant to one email id: the base record key, the status key,
the separately-keyed response, membership in the processing queue zset, and the global
token-usage aggregate. -/
structure EmailKV where
  email : Option EmailRecord
  statusData : Option StatusData
  responseKey : Option String
  inProcessingQueue : Bool
  tokenStats : Option TokenStats
deriving DecidableEq

/-- The merged view returned by `emailStore.getEmail`. -/
structure ProcessedEmailView where
  record : EmailRecord
  status : EmailStatus
  processedAt : Option String
  error : Option String
  response : Option String
  category : Option String
  tokenUsage : Option TokenUsage
  processingTime : Option Nat
  deliveryStatus : Option DeliveryStatus
  deliveredAt : Option String
deriving DecidableEq

/-- JS `a || b` on an optional string: an empty string is falsy. -/
def jsOrString : Option String → Option String → Option String
  | some s, b => if s = "" then b else some s
  | none, b => b

/-- `emailStore.getEmail` (kv-client.ts lines 99-135): merges the record, the status
object and the separate response key (`responseData || statusData?.response`). -/
def getEmail (kv : EmailKV) : Option ProcessedEmailView :=
  match kv.email with
  | none => none
  | some e =>
    let sd := kv.statusData
    some {
      record := e
      status := (sd.bind (fun d => d.status)).getD .pending
      processedAt := sd.bind (fun d => d.processedAt)
      error := sd.bind (fun d => d.error)
      response := jsOrString kv.responseKey (sd.bind (fun d => d.response))
      category := sd.bind (fun d => d.category)
      tokenUsage := sd.bind (fun d => d.tokenUsage)
      processingTime := sd.bind (fun d => d.processingTime)
      deliveryStatus := sd.bind (fun d => d.deliveryStatus)
      deliveredAt := sd.bind (fun d => d.deliveredAt) }

/-- The optional `metadata` argument of `updateEmailStatus`. A TS field that is absent
or explicitly `undefined` is `none` (both fail the `!== undefined` checks). -/
structure UpdateMetadata where
  error : Option String := none
  response : Option String := none
  category : Option String := none
  processedAt : Option String := none
  tokenUsage : Option TokenUsage := none
  processingTime : Option Nat := none
  deliveryStatus : Option DeliveryStatus := none
  deliveredAt : Option String := none
deriving DecidableEq

/-- `emailStore.updateTokenUsage` (kv-client.ts lines 224-248). -/
def updateTokenUsage (stats : Option TokenStats) (u : TokenUsage) (now : String) :
    TokenStats :=
  let cur := stats.getD
    { totalPrompt := 0, totalCompletion := 0, totalTokens := 0, emailsProcessed := 0,
      lastUpdated := now }
  { totalPrompt := cur.totalPrompt + u.prompt
    totalCompletion := cur.totalCompletion + u.completion
    totalTokens := cur.totalTokens + u.total
    emailsProcessed := cur.emailsProcessed + 1
    lastUpdated := now }

/-- `emailStore.updateEmailStatus` (kv-client.ts lines 151-221): spreads the current
status object, overrides `status` and every metadata field that is `!== undefined`,
stores it, then stores/deletes the separate response key (`kv.del` only when the
supplied response is defined and falsy), updates the processing queue zset, and
accumulates token usage. -/
def updateEmailStatus (kv : EmailKV) (status : EmailStatus) (md : UpdateMetadata)
    (now : String) : EmailKV :=
  let cur := kv.statusData.getD {}
  let sd : StatusData := {
    status := some status
    processedAt := md.processedAt <|> cur.processedAt
    error := md.error <|> cur.error
    response := md.response <|> cur.response
    category := md.category <|> cur.category
    tokenUsage := md.tokenUsage <|> cur.tokenUsage
    processingTime := md.processingTime <|> cur.processingTime
    deliveryStatus := md.deliveryStatus <|> cur.deliveryStatus
    deliveredAt := md.deliveredAt <|> cur.deliveredAt }
  let kv1 : EmailKV := { kv with statusData := some sd }
  let kv2 : EmailKV :=
    match md.response with
    | none => kv1
    | some r => if r = "" then { kv1 with responseKey := none }
                else { kv1 with responseKey := some r }
  let kv3 : EmailKV :=
    if status = .processing then { kv2 with inProcessingQueue := true }
    else if status = .completed ∨ status = .failed then
      { kv2 with inProcessingQueue := false }
    else kv2
  match md.tokenUsage with
  | some u => { kv3 with tokenStats := some (updateTokenUsage kv3.tokenStats u now) }
  | none => kv3

/-! ### Orchestrator (processor.ts) -/

structure LLMResponse where
  content : String
  tokenUsage : TokenUsage
  model : String
  processingTime : Nat
deriving DecidableEq

/-- A value thrown inside `processEmail`'s try block: either a plain string or an
object with optional `code`, `message` and `error` fields (`LLMError` objects from
llm-service.ts carry `code` and `message`; `new Error(...)` carries only `message`). -/
inductive Thrown where
  | str (s : String)
  | obj (code : Option String) (message : Option String) (errField : Option String)
deriving DecidableEq

def thrownCode : Thrown → Option String
  | .str _ => none
  | .obj code _ _ => code

/-- `EmailProcessor.shouldRetry` (processor.ts lines 176-181): `!error?.code` is true
for a missing code and for the falsy empty string; otherwise retry unless the code is
`invalid_request`. -/
def shouldRetry (e : Thrown) : Bool :=
  match thrownCode e with
  | none => true
  | some c => if c = "" then true else c ≠ "invalid_request"

/-- JS truthiness fallback used by `getErrorMessage`: an empty string is falsy. -/
def truthyString : Option String → Option String
  | some s => if s = "" then none else some s
  | none => none

/-- `EmailProcessor.getErrorMessage` (processor.ts lines 186-191). -/
def getErrorMessage : Thrown → String
  | .str s => s
  | .obj _ msg errField =>
    match truthyString msg with
    | some m => m
    | none =>
      match truthyString errField with
      | some e => e
      | none => "Unknown error occurred"

structure ProcessingResult where
  status : EmailStatus
  response : Option String := none
  tokenUsage : Option TokenUsage := none
  processingTime : Option Nat := none
  error : Option String := none
  processedAt : String
deriving DecidableEq

/-- `EmailProcessor.processEmail` (processor.ts lines 38-95). The LLM call outcome is
the parameter `llm`. The catch block also catches the `Email not found` throw, whose
`.code` is undefined, so that path persists a `failed` status. -/
def processEmail (kv : EmailKV) (llm : Except Thrown LLMResponse) (now : String) :
    EmailKV × ProcessingResult :=
  match getEmail kv with
  | none =>
    let notFound : Thrown := .obj none (some "Email not found") none
    let msg := getErrorMessage notFound
    let st : EmailStatus := if shouldRetry notFound then .failed else .manualReview
    let kv' := updateEmailStatus kv st { error := some msg, processedAt := some now } now
    (kv', { status := st, error := some msg, processedAt := now })
  | some _ =>
    let kv1 := updateEmailStatus kv .processing {} now
    match llm with
    | .ok r =>
      let kv2 := updateEmailStatus kv1 .completed
        { response := some r.content, processedAt := some now,
          tokenUsage := some r.tokenUsage, processingTime := some r.processingTime } now
      (kv2, { status := .completed, response := some r.content,
              tokenUsage := some r.tokenUsage, processingTime := some r.processingTime,
              processedAt := now })
    | .error e =>
      let msg := getErrorMessage e
      let st : EmailStatus := if shouldRetry e then .failed else .manualReview
      let kv2 := updateEmailStatus kv1 st
        { error := some msg, processedAt := some now } now
      (kv2, { status := st, error := some msg, processedAt := now })

/-- `EmailProcessor.retryEmail` (processor.ts lines 142-160). The two throws are not
caught inside `retryEmail`, so they surface as `Except.error` with the store
untouched; the reset write passes `{ error: undefined }`. -/
def retryEmail (kv : EmailKV) (llm : Except Thrown LLMResponse) (now : String) :
    EmailKV × Except String ProcessingResult :=
  match getEmail kv with
  | none => (kv, .error "Email not found")
  | some em =>
    if em.status ≠ .failed ∧ em.status ≠ .manualReview then
      (kv, .error ("Cannot retry email with status: " ++ statusToString em.status))
    else
      let kv1 := updateEmailStatus kv .pending { error := none } now
      let out := processEmail kv1 llm now
      (out.1, .ok out.2)

/-- The reset route `POST /api/process/reset/[id]` (unnamed part_000 lines 383-446):
resets the status to `pending`, passing every metadata field explicitly as
`undefined`. -/
def resetEmailRoute (kv : EmailKV) (now : String) : EmailKV × Bool :=
  match getEmail kv with
  | none => (kv, false)
  | some _ =>
    (updateEmailStatus kv .pending
      { error := none, response := none, processedAt := none,
        tokenUsage := none, processingTime := none } now, true)

/-! ### Delivery gateway (email-service.ts) -/

inductive EmailTemplate where
  | standard
  | urgent
  | quote
deriving DecidableEq

structure EmailSendResult where
  success : Bool
  messageId : Option String := none
  error : Option String := none
  sentAt : Option String := none
deriving DecidableEq

/-- `hay.includes(needle)` on character lists. -/
def listContains (hay needle : List Char) : Bool :=
  match hay with
  | [] => needle.isEmpty
  | _ :: t => needle.isPrefixOf hay || listContains t needle

/-- JS `hay.includes(needle)`. -/
def strContains (hay needle : String) : Bool :=
  listContains hay.data needle.data

/-- JS `String.prototype.split` with a one-character separator. -/
def splitOnCharL (sep : Char) : List Char → List (List Char)
  | [] => [[]]
  | c :: rest =>
    if c = sep then [] :: splitOnCharL sep rest
    else
      match splitOnCharL sep rest with
      | g :: gs => (c :: g) :: gs
      | [] => [[c]]

def strToLower (s : String) : String :=
  String.mk (s.data.map Char.toLower)

/-- The match of `/<([^>]+)>/`: first `<` followed by a nonempty run of non-`>`
characters and a `>`; returns the capture. -/
def findAngleCapture : List Char → Option (List Char)
  | [] => none
  | c :: rest =>
    if c = '<' then
      let content := rest.takeWhile (fun d => d ≠ '>')
      let r := rest.drop content.length
      match r with
      | '>' :: _ => if content.isEmpty then findAngleCapture rest else some content
      | _ => findAngleCapture rest
    else findAngleCapture rest

/-- `EmailService.extractEmailAddress` (email-service.ts lines 185-188). -/
def extractEmailAddress (fromField : String) : String :=
  match findAngleCapture fromField.data with
  | some c => String.mk c
  | none => fromField

/-- The environment-derived configuration of `EmailService`; `resendInit` models
whether `this.resend` was initialized (API key present and sending enabled). -/
structure EmailServiceConfig where
  enabled : Bool
  testMode : Bool
  resendInit : Bool
  fromEmail : String
  fromName : String
  allowedDomains : List String
  blockedDomains : List String
deriving DecidableEq

inductive SendCheck where
  | allowed
  | blocked (reason : String)
deriving DecidableEq

/-- `EmailService.shouldSendToEmail` (email-service.ts lines 161-183). -/
def shouldSendToEmail (cfg : EmailServiceConfig) (email : String) : SendCheck :=
  match (((splitOnCharL '@' email.data).map String.mk).get? 1) with
  | none => .blocked "Invalid email address"
  | some d =>
    if d = "" then .blocked "Invalid email address"
    else
      let domain := strToLower d
      match cfg.blockedDomains.find? (fun b => strContains (strToLower email) b) with
      | some b => .blocked ("Blocked pattern: " ++ b)
      | none =>
        if cfg.allowedDomains.isEmpty then .allowed
        else if cfg.allowedDomains.any
            (fun a => domain = a || strContains (strToLower email) a) then .allowed
        else .blocked "Domain not in allowed list"

/-- `EmailService.selectTemplate` (email-service.ts lines 140-159). -/
def selectTemplate (subject responseContent : String) : EmailTemplate :=
  let lowerSubject := strToLower subject
  let lowerContent := strToLower responseContent
  if ["urgent", "asap", "emergency", "rush"].any
      (fun k => strContains lowerSubject k || strContains lowerContent k) then .urgent
  else if strContains responseContent "|" ||
      ["quote", "rate", "price", "$"].any
        (fun k => strContains lowerSubject k || strContains lowerContent k) then .quote
  else .standard

/-- Outcome of the pre-send pipeline of `sendResponse`: either a result returned
without reaching the provider, or an actual `resend.emails.send` transmission. -/
inductive SendDecision where
  | noSend (result : EmailSendResult)
  | transmit (toEmail : String) (template : EmailTemplate)
deriving DecidableEq

/-- `EmailService.sendResponse` (email-service.ts lines 50-135) up to the provider
call. `nowIso`/`nowMs` stand for `new Date().toISOString()` and `Date.now()`. -/
def sendResponse (cfg : EmailServiceConfig) (email : ProcessedEmailView)
    (responseContent : String) (templateOverride : Option EmailTemplate)
    (nowIso nowMs : String) : SendDecision :=
  if ¬cfg.enabled then
    .noSend { success := false, error := some "Email sending is disabled" }
  else if ¬cfg.resendInit then
    .noSend { success := false, error := some "Resend client not initialized" }
  else
    let toEmail := extractEmailAddress email.record.fromField
    match shouldSendToEmail cfg toEmail with
    | .blocked reason =>
      .noSend { success := false, error := some ("Email blocked: " ++ reason) }
    | .allowed =>
      let template := templateOverride.getD
        (selectTemplate email.record.subject responseContent)
      if cfg.testMode then
        .noSend { success := true, messageId := some ("test-" ++ nowMs),
                  sentAt := some nowIso }
      else
        .transmit toEmail template

/-! ### HTML escaping (rich_email_renderer.ts `escapeHtml`) -/

def isAsciiLetter (c : Char) : Bool :=
  ('a' ≤ c && c ≤ 'z') || ('A' ≤ c && c ≤ 'Z')

def isDigitChar (c : Char) : Bool :=
  '0' ≤ c && c ≤ '9'

/-- `∃ k ≥ 1` such that the first `k` characters satisfy `p` and the next character is
`;` — the body of the entity lookahead `(?:[a-zA-Z]+|#\d+);` (backtracking on the
greedy `+` is equivalent because `;` never satisfies `p`). -/
def runThenSemi (p : Char → Bool) : List Char → Bool
  | [] => false
  | c :: rest => p c && ((rest.head? == some ';') || runThenSemi p rest)

/-- The negative lookahead in `/&(?!(?:[a-zA-Z]+|#\d+);)/`: is the text after a `&`
the body of a valid entity reference? -/
def entAfter (l : List Char) : Bool :=
  match l with
  | [] => false
  | c :: rest => if c = '#' then runThenSemi isDigitChar rest
                 else runThenSemi isAsciiLetter (c :: rest)

/-- First `.replace` of `escapeHtml`: every `&` not starting a valid entity becomes
`&amp;` (the lookahead inspects the input, and scanning resumes after the
replacement). -/
def escAmp : List Char → List Char
  | [] => []
  | c :: rest =>
    if c = '&' then
      if entAfter rest then '&' :: escAmp rest
      else '&' :: 'a' :: 'm' :: 'p' :: ';' :: escAmp rest
    else c :: escAmp rest

/-- The four unconditional character replacements of `escapeHtml`. They commute with
sequential application because no replacement text contains a character replaced by a
later pass. -/
def escChar (c : Char) : List Char :=
  if c = '<' then ['&', 'l', 't', ';']
  else if c = '>' then ['&', 'g', 't', ';']
  else if c = '"' then ['&', 'q', 'u', 'o', 't', ';']
  else if c = '\x27' then ['&', '#', '3', '9', ';']
  else [c]

def escRest : List Char → List Char
  | [] => []
  | c :: rest => escChar c ++ escRest rest

def escapeHtmlL (l : List Char) : List Char :=
  escRest (escAmp l)

/-- `RichEmailRenderer.escapeHtml` (rich_email_renderer.ts lines 283-291). -/
def escapeHtml (s : String) : String :=
  String.mk (escapeHtmlL s.data)

/-! ### Inline formatting (rich_email_renderer.ts `processInline`)

The block tokenizer splits the source on newlines, so the strings these passes
receive never contain a newline; `.` in the source regexes therefore matches any
character here. -/

/-- Split at the first occurrence of `**`: the part before it and the part after it. -/
def findSS : List Char → Option (List Char × List Char)
  | [] => none
  | [_] => none
  | c :: d :: rest =>
    if c = '*' ∧ d = '*' then some ([], rest)
    else (findSS (d :: rest)).map (fun pr => (c :: pr.1, pr.2))

/-- Bold pass `/\*\*(.+?)\*\*/g → <strong>$1</strong>`: a match opens at the first
`**` and closes at the next `**` with at least one character in between; when no such
close exists no later open can succeed either, so the remainder is unchanged. Each
recursive step consumes at least five characters of the input, so `l.length` fuel
always suffices and the `0` case is never reached. -/
def boldPassF : Nat → List Char → List Char
  | 0, l => l
  | fuel + 1, l =>
    match findSS l with
    | none => l
    | some (pre, rest) =>
      match rest with
      | [] => l
      | c :: rest2 =>
        match findSS rest2 with
        | none => l
        | some (content, q) =>
          pre ++ "<strong>".data ++ (c :: content) ++ "</strong>".data
            ++ boldPassF fuel q

def boldPass (l : List Char) : List Char :=
  boldPassF l.length l

/-- The close condition of the italic regex
`/(?<!\*)\*(?!\*)(.+?)(?<!\*)\*(?!\*)/g`: the first `*` whose input neighbours are
both not `*`; `prev` is the input character just before the list (initially the
opening `*`, so the one-character minimum of `.+?` is automatic). -/
def findItClose (prev : Char) : List Char → Option (List Char × List Char)
  | [] => none
  | c :: rest =>
    if c = '*' ∧ prev ≠ '*' ∧ rest.head? ≠ some '*' then some ([], rest)
    else (findItClose c rest).map (fun pr => (c :: pr.1, pr.2))

/-- Italic pass: scans with the previous input character as lookbehind context
(`none` at the start of the string). An opening `*` is one preceded and followed by
non-`*`; when it has no close the input has no isolated `*` further on, so continuing
the scan past it is faithful. -/
def italPassF : Nat → Option Char → List Char → List Char
  | 0, _, l => l
  | fuel + 1, prev, l =>
    match l with
    | [] => []
    | c :: rest =>
      if c = '*' then
        if prev ≠ some '*' ∧ rest.head? ≠ some '*' then
          match findItClose '*' rest with
          | some (content, after) =>
            "<em>".data ++ content ++ "</em>".data ++ italPassF fuel (some '*') after
          | none => '*' :: italPassF fuel (some '*') rest
        else '*' :: italPassF fuel (some '*') rest
      else c :: italPassF fuel (some c) rest

def italPass (prev : Option Char) (l : List Char) : List Char :=
  italPassF l.length prev l

def backtickChar : Char := '\x60'

def codeOpenHtml : String :=
  "<code style=\"font-family:ui-monospace, SFMono-Regular, Menlo, Monaco, Consolas, "
  ++ String.mk ['\x27'] ++ "Liberation Mono" ++ String.mk ['\x27'] ++ ", "
  ++ String.mk ['\x27'] ++ "Courier New" ++ String.mk ['\x27']
  ++ ", monospace;font-size:0.95em;\">"

/-- One attempted match of `/`([^`]+)`/` at an opening backtick (the backtick itself
already consumed): the replacement chunk and the remainder after the close. -/
def tryCode (rest : List Char) : Option (List Char × List Char) :=
  let content := rest.takeWhile (fun d => d ≠ backtickChar)
  let r := rest.drop content.length
  match r with
  | d :: r2 =>
    if d = backtickChar ∧ ¬content.isEmpty then
      some (codeOpenHtml.data ++ content ++ "</code>".data, r2)
    else none
  | [] => none

/-- Code pass: backtick, a nonempty run of non-backticks, backtick; a backtick with
no match advances the scan by one character. -/
def codePassF : Nat → List Char → List Char
  | 0, l => l
  | fuel + 1, l =>
    match l with
    | [] => []
    | c :: rest =>
      if c = backtickChar then
        match tryCode rest with
        | some (chunk, r2) => chunk ++ codePassF fuel r2
        | none => c :: codePassF fuel rest
      else c :: codePassF fuel rest

def codePass (l : List Char) : List Char :=
  codePassF l.length l

/-- The JS `\s` character class (also the set trimmed by `String.prototype.trim`). -/
def jsSpace (c : Char) : Bool :=
  c = ' ' || c = '\t' || c = '\n' || c = '\r' || c = '\x0b' || c = '\x0c' ||
  c = ' ' || c = ' ' || (' ' ≤ c && c ≤ ' ') ||
  c = ' ' || c = ' ' || c = ' ' || c = ' ' || c = '　' ||
  c = '﻿'

def linkOpenA : String := "<a href=\""

def linkMidA : String := "\" style=\"color:#2563eb;text-decoration:underline;\">"

/-- One attempted match of `/\[([^\]]+)\]\((https?:\/\/[^\s)]+)\)/` at an opening `[`
(the bracket itself already consumed). -/
def tryLink (rest : List Char) : Option (List Char × List Char) :=
  let txt := rest.takeWhile (fun d => d ≠ ']')
  let r1 := rest.drop txt.length
  match r1 with
  | ']' :: '(' :: r2 =>
    let proto : Option (List Char) :=
      if "https://".data.isPrefixOf r2 then some "https://".data
      else if "http://".data.isPrefixOf r2 then some "http://".data
      else none
    match proto with
    | none => none
    | some pr =>
      let r3 := r2.drop pr.length
      let tail := r3.takeWhile (fun d => !jsSpace d && d ≠ ')')
      let r4 := r3.drop tail.length
      match r4 with
      | ')' :: r5 =>
        if txt.isEmpty ∨ tail.isEmpty then none
        else
          some (linkOpenA.data ++ pr ++ tail ++ linkMidA.data ++ txt ++ "</a>".data,
                r5)
      | _ => none
  | _ => none

/-- Link pass. -/
def linkPassF : Nat → List Char → List Char
  | 0, l => l
  | fuel + 1, l =>
    match l with
    | [] => []
    | c :: rest =>
      if c = '[' then
        match tryLink rest with
        | some (chunk, r5) => chunk ++ linkPassF fuel r5
        | none => c :: linkPassF fuel rest
      else c :: linkPassF fuel rest

def linkPass (l : List Char) : List Char :=
  linkPassF l.length l

/-- `RichEmailRenderer.processInline` (rich_email_renderer.ts lines 267-281):
escape, then bold, italic, code and link substitution. -/
def processInline (s : String) : String :=
  String.mk (linkPass (codePass (italPass none (boldPass (escapeHtmlL s.data)))))

/-! ### Block tokenizer (rich_email_renderer.ts `tokenizeBlocks`) -/

/-- JS `String.prototype.trim`. -/
def jsTrim (s : String) : String :=
  String.mk (((s.data.dropWhile jsSpace).reverse.dropWhile jsSpace).reverse)

/-- `/^\s*$/`. -/
def isBlankLine (l : String) : Bool :=
  l.data.all jsSpace

/-- `/^##\s+/` (tested before the `###` case; a third `#` fails the `\s` check). -/
def isH2 (l : String) : Bool :=
  match l.data with
  | '#' :: '#' :: c :: _ => jsSpace c
  | _ => false

/-- `line.replace(/^##\s+/, '')`. -/
def h2Text (l : String) : String :=
  String.mk ((l.data.drop 2).dropWhile jsSpace)

/-- `/^###\s+/`. -/
def isH3 (l : String) : Bool :=
  match l.data with
  | '#' :: '#' :: '#' :: c :: _ => jsSpace c
  | _ => false

def h3Text (l : String) : String :=
  String.mk ((l.data.drop 3).dropWhile jsSpace)

/-- `/^\s*[-*]\s+/`. -/
def isUlItem (l : String) : Bool :=
  match l.data.dropWhile jsSpace with
  | c :: d :: _ => (c = '-' || c = '*') && jsSpace d
  | _ => false

/-- `line.replace(/^\s*[-*]\s+/, '')`. -/
def ulItemText (l : String) : String :=
  String.mk (((l.data.dropWhile jsSpace).drop 1).dropWhile jsSpace)

/-- `/^\s*\d+\.\s+/` (the greedy `\d+` is the maximal digit run because `.` is not a
digit). -/
def isOlItem (l : String) : Bool :=
  let r := l.data.dropWhile jsSpace
  let ds := r.takeWhile isDigitChar
  !ds.isEmpty &&
    (match r.drop ds.length with
     | '.' :: d :: _ => jsSpace d
     | _ => false)

def olItemText (l : String) : String :=
  let r := l.data.dropWhile jsSpace
  String.mk (((r.dropWhile isDigitChar).drop 1).dropWhile jsSpace)

/-- `/^\s*\|/`. -/
def isTableLine (l : String) : Bool :=
  (l.data.dropWhile jsSpace).head? == some '|'

/-- `/^\s*---\s*$/`. -/
def isHrLine (l : String) : Bool :=
  match l.data.dropWhile jsSpace with
  | '-' :: '-' :: '-' :: rest => rest.all jsSpace
  | _ => false

/-- The separator test `/^\s*\|?[-:\s|]+\|?\s*$/`: since `|` and `\s` are inside the
repeated class as well, the regex accepts exactly the nonempty strings drawn from
`-`, `:`, `|` and whitespace. -/
def sepValid (l : String) : Bool :=
  !l.data.isEmpty && l.data.all (fun c => c = '-' || c = ':' || c = '|' || jsSpace c)

/-- `.trim().replace(/^\|/, '').replace(/\|$/, '').split('|').map(s => s.trim())`. -/
def splitCells (line : String) : List String :=
  let t := (jsTrim line).data
  let t1 := match t with
    | '|' :: rest => rest
    | _ => t
  let t2 := if t1.getLast? == some '|' then t1.dropLast else t1
  (splitOnCharL '|' t2).map (fun cell => jsTrim (String.mk cell))

inductive Block where
  | table (headers : List String) (rows : List (List String))
  | ul (items : List String)
  | ol (items : List String)
  | h2 (text : String)
  | h3 (text : String)
  | p (text : String)
  | hr
deriving DecidableEq

/-- The per-kind item test of `collectList`. -/
def isListItem (ordered : Bool) (l : String) : Bool :=
  if ordered then isOlItem l else isUlItem l

/-- The per-kind marker strip of `collectList`. -/
def listItemText (ordered : Bool) (l : String) : String :=
  if ordered then olItemText l else ulItemText l

/-- The body of `collectList`: consume lines while they match the list-item pattern
for the given kind, stripping the marker from each. -/
def collectItems (ordered : Bool) : List String → List String × List String
  | [] => ([], [])
  | l :: rest =>
    if isListItem ordered l then
      let res := collectItems ordered rest
      (listItemText ordered l :: res.1, res.2)
    else ([], l :: rest)

/-- Consume table data rows: lines matching `/^\s*\|/`, split into cells. -/
def collectRows : List String → List (List String) × List String
  | [] => ([], [])
  | l :: rest =>
    if isTableLine l then
      let res := collectRows rest
      (splitCells l :: res.1, res.2)
    else ([], l :: rest)

/-- `RichEmailRenderer.tokenizeBlocks` (rich_email_renderer.ts lines 177-263). The
first line of a list enters `collectList` at the current index, which is modelled by
prepending its stripped text to the items collected from the remaining lines. When a
table separator line is invalid only the header line is consumed
(`blocks.push({type:'p', text:headerLine})`). -/
def tokenizeF : Nat → List String → List Block
  | 0, _ => []
  | fuel + 1, ls =>
    match ls with
    | [] => []
    | line :: rest =>
      if isBlankLine line then .p "" :: tokenizeF fuel rest
      else if isH2 line then .h2 (h2Text line) :: tokenizeF fuel rest
      else if isH3 line then .h3 (h3Text line) :: tokenizeF fuel rest
      else if isUlItem line then
        .ul (ulItemText line :: (collectItems false rest).1)
          :: tokenizeF fuel (collectItems false rest).2
      else if isOlItem line then
        .ol (olItemText line :: (collectItems true rest).1)
          :: tokenizeF fuel (collectItems true rest).2
      else if isTableLine line then
        if sepValid (rest.headD "") then
          .table (splitCells line) (collectRows rest.tail).1
            :: tokenizeF fuel (collectRows rest.tail).2
        else .p line :: tokenizeF fuel rest
      else if isHrLine line then .hr :: tokenizeF fuel rest
      else .p line :: tokenizeF fuel rest

def tokenize (ls : List String) : List Block :=
  tokenizeF ls.length ls

/-! ### Block rendering (rich_email_renderer.ts) -/

/-- `Required<EmailRenderOptions>` with the constructor defaults. -/
structure RenderOptions where
  fontFamily : String := "Inter, Arial, sans-serif"
  fontSize : String := "16px"
  lineHeight : String := "24px"
  textColor : String := "#111827"
  tableBorderColor : String := "#e5e7eb"
  headerColor : String := "#111827"
deriving DecidableEq

def defaultRenderOptions : RenderOptions := {}

/-- `RichEmailRenderer.heading`. -/
def headingHtml (o : RenderOptions) (text : String) (size lh : Nat) (bold : Bool) :
    String :=
  "\n<table role=\"presentation\" width=\"100%\" border=\"0\" cellpadding=\"0\" cellspacing=\"0\" style=\"margin:0;padding:0;\">\n  <tr>\n    <td align=\"left\" valign=\"top\" style=\"padding:20px 0 8px 0;font-family:"
  ++ o.fontFamily ++ ";font-size:" ++ toString size ++ "px;line-height:"
  ++ toString lh ++ "px;color:" ++ o.headerColor ++ ";"
  ++ (if bold then "font-weight:700;" else "")
  ++ "mso-line-height-rule:exactly;\">\n      " ++ processInline text
  ++ "\n    </td>\n  </tr>\n</table>"

/-- `RichEmailRenderer.paragraph`: an all-whitespace text renders as `&nbsp;`. -/
def paragraphHtml (o : RenderOptions) (text : String) : String :=
  "\n<table role=\"presentation\" width=\"100%\" border=\"0\" cellpadding=\"0\" cellspacing=\"0\" style=\"margin:0;padding:0;\">\n  <tr>\n    <td align=\"left\" valign=\"top\" style=\"padding:0 0 12px 0;font-family:"
  ++ o.fontFamily ++ ";font-size:" ++ o.fontSize ++ ";line-height:" ++ o.lineHeight
  ++ ";color:" ++ o.textColor ++ ";mso-line-height-rule:exactly;\">\n      "
  ++ (if (jsTrim text).data.length ≠ 0 then processInline text else "&nbsp;")
  ++ "\n    </td>\n  </tr>\n</table>"

/-- `RichEmailRenderer.rule`. -/
def ruleHtml (o : RenderOptions) : String :=
  "\n<table role=\"presentation\" width=\"100%\" border=\"0\" cellpadding=\"0\" cellspacing=\"0\" style=\"margin:0;padding:16px 0;\">\n  <tr>\n    <td style=\"height:1px;line-height:1px;mso-line-height-rule:exactly;background:"
  ++ o.tableBorderColor ++ ";\">&nbsp;</td>\n  </tr>\n</table>"

def listItemHtml (raw : String) : String :=
  "<li style=\"margin:0 0 8px 0;mso-line-height-rule:exactly;\">" ++ processInline raw
  ++ "</li>"

/-- `RichEmailRenderer.createBulletList`. -/
def bulletListHtml (o : RenderOptions) (items : List String) : String :=
  "\n<table role=\"presentation\" width=\"100%\" border=\"0\" cellpadding=\"0\" cellspacing=\"0\">\n  <tr>\n    <td align=\"left\" valign=\"top\" style=\"padding:0 0 12px 0;font-family:"
  ++ o.fontFamily ++ ";font-size:" ++ o.fontSize ++ ";line-height:" ++ o.lineHeight
  ++ ";color:" ++ o.textColor
  ++ ";mso-line-height-rule:exactly;\">\n      <ul style=\"margin:0;padding:0 0 0 20px;list-style-type:disc;\">\n        "
  ++ String.join (items.map listItemHtml)
  ++ "\n      </ul>\n    </td>\n  </tr>\n</table>"

/-- `RichEmailRenderer.createNumberList`. -/
def numberListHtml (o : RenderOptions) (items : List String) : String :=
  "\n<table role=\"presentation\" width=\"100%\" border=\"0\" cellpadding=\"0\" cellspacing=\"0\">\n  <tr>\n    <td align=\"left\" valign=\"top\" style=\"padding:0 0 12px 0;font-family:"
  ++ o.fontFamily ++ ";font-size:" ++ o.fontSize ++ ";line-height:" ++ o.lineHeight
  ++ ";color:" ++ o.textColor
  ++ ";mso-line-height-rule:exactly;\">\n      <ol style=\"margin:0;padding:0 0 0 20px;\">\n        "
  ++ String.join (items.map listItemHtml)
  ++ "\n      </ol>\n    </td>\n  </tr>\n</table>"

/-- A table cell body: `this.processInline(cell.trim() || '&nbsp;')`. -/
def cellContent (cell : String) : String :=
  processInline (if (jsTrim cell).data.isEmpty then "&nbsp;" else jsTrim cell)

def headerCellHtml (o : RenderOptions) (h : String) : String :=
  "<th align=\"left\" valign=\"top\" bgcolor=\"#f8f9fa\" style=\"padding:10px;border:1px solid "
  ++ o.tableBorderColor ++ ";font-family:" ++ o.fontFamily
  ++ ";font-size:14px;line-height:20px;color:" ++ o.headerColor
  ++ ";font-weight:700;background-color:#f8f9fa;mso-line-height-rule:exactly;\">"
  ++ cellContent h ++ "</th>"

def dataCellHtml (o : RenderOptions) (cell : String) : String :=
  "<td align=\"left\" valign=\"top\" style=\"padding:10px;border:1px solid "
  ++ o.tableBorderColor ++ ";font-family:" ++ o.fontFamily
  ++ ";font-size:14px;line-height:20px;color:" ++ o.textColor
  ++ ";mso-line-height-rule:exactly;\">" ++ cellContent cell ++ "</td>"

def dataRowHtml (o : RenderOptions) (idxRow : Nat × List String) : String :=
  "<tr" ++ (if idxRow.1 % 2 = 0 then "" else " bgcolor=\"#fcfcfd\"") ++ ">"
  ++ String.join (idxRow.2.map (dataCellHtml o)) ++ "</tr>"

/-- `RichEmailRenderer.createEmailTable`. -/
def emailTableHtml (o : RenderOptions) (headers : List String)
    (rows : List (List String)) : String :=
  "\n<table role=\"presentation\" width=\"100%\" border=\"0\" cellpadding=\"0\" cellspacing=\"0\" style=\"margin:0 0 16px 0;\">\n  <tr>\n    <td>\n      <table role=\"presentation\" width=\"100%\" border=\"0\" cellpadding=\"0\" cellspacing=\"0\">\n        <tr>"
  ++ String.join (headers.map (headerCellHtml o)) ++ "</tr>\n        "
  ++ String.join (rows.enum.map (dataRowHtml o))
  ++ "\n      </table>\n    </td>\n  </tr>\n</table>"

/-- The switch in `renderToEmailHtml` (the `default` arm is unreachable for this
block type). -/
def renderBlock (o : RenderOptions) : Block → String
  | .table headers rows => emailTableHtml o headers rows
  | .ul items => bulletListHtml o items
  | .ol items => numberListHtml o items
  | .h2 text => headingHtml o text 20 28 true
  | .h3 text => headingHtml o text 18 26 true
  | .p text => paragraphHtml o text
  | .hr => ruleHtml o

/-- `markdown.replace(/\r\n/g, '\n')`. -/
def replaceCRLF : List Char → List Char
  | [] => []
  | '\r' :: '\n' :: rest => '\n' :: replaceCRLF rest
  | c :: rest => c :: replaceCRLF rest

/-- Normalize line endings and `split('\n')`. -/
def splitLines (markdown : String) : List String :=
  (splitOnCharL '\n' (replaceCRLF markdown.data)).map String.mk

/-- `RichEmailRenderer.renderToEmailHtml` (rich_email_renderer.ts lines 28-65). -/
def renderToEmailHtml (o : RenderOptions) (markdown : String) : String :=
  String.join ((tokenize (splitLines markdown)).map (renderBlock o))

/-- `renderEmailContent` with no options: all defaults. -/
def renderEmailContent (markdown : String) : String :=
  renderToEmailHtml defaultRenderOptions markdown

/-! ### Plain-text derivation (email-wrapper.ts `wrapPlainText`) -/

/-- One attempted match of the wrapper's bold-strip `/\*\*([^*]+)\*\*/` after an
opening `**`: a nonempty star-free run closed by `**`. -/
def tryBoldStrip (rest2 : List Char) : Option (List Char × List Char) :=
  let content := rest2.takeWhile (fun e => e ≠ '*')
  let r := rest2.drop content.length
  match r with
  | '*' :: '*' :: r2 => if content.isEmpty then none else some (content, r2)
  | _ => none

/-- `markdownContent.replace(/\*\*([^*]+)\*\*/g, '$1')` (a failed attempt advances
the scan by one character). -/
def stripBoldF : Nat → List Char → List Char
  | 0, l => l
  | fuel + 1, l =>
    match l with
    | [] => []
    | c :: rest =>
      if c = '*' then
        match rest with
        | d :: rest2 =>
          if d = '*' then
            match tryBoldStrip rest2 with
            | some (content, r2) => content ++ stripBoldF fuel r2
            | none => c :: stripBoldF fuel (d :: rest2)
          else c :: stripBoldF fuel (d :: rest2)
        | [] => [c]
      else c :: stripBoldF fuel rest

def stripBold (l : List Char) : List Char :=
  stripBoldF l.length l

/-- One attempted match of `/\*([^*\n]+)\*/` after an opening `*`. -/
def tryItalStrip (rest : List Char) : Option (List Char × List Char) :=
  let content := rest.takeWhile (fun e => e ≠ '*' && e ≠ '\n')
  let r := rest.drop content.length
  match r with
  | '*' :: r2 => if content.isEmpty then none else some (content, r2)
  | _ => none

/-- `.replace(/\*([^*\n]+)\*/g, '$1')`. -/
def stripItalF : Nat → List Char → List Char
  | 0, l => l
  | fuel + 1, l =>
    match l with
    | [] => []
    | c :: rest =>
      if c = '*' then
        match tryItalStrip rest with
        | some (content, r2) => content ++ stripItalF fuel r2
        | none => c :: stripItalF fuel rest
      else c :: stripItalF fuel rest

def stripItal (l : List Char) : List Char :=
  stripItalF l.length l

/-- One attempted match of `/^\s*[*\-+]\s+/` at an anchored position: `\s` may cross
newlines, the marker is `*`, `-` or `+`, and at least one whitespace character must
follow; reports whether the last consumed character was a newline (then the
continuation position is anchored again). -/
def tryBullet (l : List Char) : Option (Bool × List Char) :=
  let ws := l.takeWhile jsSpace
  let r := l.drop ws.length
  match r with
  | c :: rest =>
    if c = '*' || c = '-' || c = '+' then
      let ws2 := rest.takeWhile jsSpace
      if ws2.isEmpty then none
      else some (ws2.getLast? == some '\n', rest.drop ws2.length)
    else none
  | [] => none

/-- `.replace(/^\s*[*\-+]\s+/gm, '• ')`: with the `m` flag, matches are attempted at
the string start and after each newline; a failed attempt advances one character. -/
def bulletScanF : Nat → Bool → List Char → List Char
  | 0, _, l => l
  | fuel + 1, anchored, l =>
    match l with
    | [] => []
    | c :: rest =>
      if anchored then
        match tryBullet (c :: rest) with
        | some (nl, rem) => '•' :: ' ' :: bulletScanF fuel nl rem
        | none => c :: bulletScanF fuel (c = '\n') rest
      else c :: bulletScanF fuel (c = '\n') rest

def bulletScan (anchored : Bool) (l : List Char) : List Char :=
  bulletScanF l.length anchored l

/-- `.replace(/\n{3,}/g, '\n\n')`. -/
def collapseNlF : Nat → List Char → List Char
  | 0, l => l
  | fuel + 1, l =>
    match l with
    | [] => []
    | c :: rest =>
      if c = '\n' then
        let nls := rest.takeWhile (fun d => d = '\n')
        if nls.length + 1 ≥ 3 then
          '\n' :: '\n' :: collapseNlF fuel (rest.drop nls.length)
        else c :: collapseNlF fuel rest
      else c :: collapseNlF fuel rest

def collapseNl (l : List Char) : List Char :=
  collapseNlF l.length l

/-- The string transformation inside `EmailWrapper.wrapPlainText`
(email-wrapper.ts lines 101-114): strip bold markers, strip italic markers, turn
bullet markers into `• `, collapse runs of three or more newlines, trim. -/
def plainTextTransform (s : String) : String :=
  jsTrim (String.mk (collapseNl (bulletScan true (stripItal (stripBold s.data)))))

def eqSeparator : String := String.mk (List.replicate 50 '=')

/-- `EmailWrapper.getPlainTextHeader`. -/
def getPlainTextHeader : Option EmailTemplate → String
  | some .urgent => "AMARA QUO - URGENT FREIGHT INTELLIGENCE\n" ++ eqSeparator
  | some .quote => "AMARA QUO - FREIGHT QUOTE SYSTEM\n" ++ eqSeparator
  | _ => "AMARA QUO - FREIGHT INTELLIGENCE SYSTEM\n" ++ eqSeparator

/-- `EmailWrapper.wrapPlainText`: header, blank line, transformed **markdown** (not
the rendered HTML), footer; `nowLocale` models `new Date().toLocaleString()`. -/
def wrapPlainText (markdownContent : String) (template : Option EmailTemplate)
    (nowLocale : String) : String :=
  getPlainTextHeader template ++ "\n\n" ++ plainTextTransform markdownContent
  ++ "\n---\nAutomated response from Amara QUO Freight Intelligence\n" ++ nowLocale

/-! ### Auxiliary predicates and sample inputs used by the verification -/

/-- The four characters `escapeHtml` replaces unconditionally. -/
def special (c : Char) : Bool :=
  c = '<' || c = '>' || c = '"' || c = '\x27'

/-- Escape-normal form: no unconditionally-replaced character remains, and every `&`
starts a valid entity reference. `escapeHtml` always produces such a string and is
the identity on it. -/
def goodB : List Char → Bool
  | [] => true
  | c :: rest =>
    if c = '&' then entAfter rest && goodB rest else !special c && goodB rest

/-- Whether a `sendResponse` outcome reports success (an actual transmission is the
provider call itself, reached only on the success path). -/
def sendSuccess : SendDecision → Bool
  | .noSend r => r.success
  | .transmit _ _ => true

def sampleRecord : EmailRecord :=
  { id := "m1", threadId := "th1", subject := "Quote request",
    fromField := "Ada Lovelace <ada@example.com>", toField := "amara@example.com",
    date := "2024-01-01", snippet := "snippet", body := "body",
    receivedAt := "2024-01-01T00:00:00Z", historyId := 7 }

/-- A stored state left over by a failed attempt: error, response, token usage and
delivery fields all populated. -/
def staleFailedSD : StatusData :=
  { status := some .failed, processedAt := some "2024-01-01T01:00:00Z",
    error := some "LLM timeout", response := some "old reply",
    tokenUsage := some { prompt := 10, completion := 20, total := 30 },
    processingTime := some 1200, deliveryStatus := some .sent,
    deliveredAt := some "2024-01-01T01:05:00Z" }

def staleFailedKV : EmailKV :=
  { email := some sampleRecord, statusData := some staleFailedSD,
    responseKey := some "old reply", inProcessingQueue := false, tokenStats := none }

def staleCompletedSD : StatusData :=
  { staleFailedSD with status := some .completed, error := none }

def staleCompletedKV : EmailKV :=
  { staleFailedKV with statusData := some staleCompletedSD }

/-- The view `getEmail` returns for `staleCompletedKV`. -/
def staleCompletedView : ProcessedEmailView :=
  { record := sampleRecord, status := .completed,
    processedAt := some "2024-01-01T01:00:00Z", error := none,
    response := some "old reply", category := none,
    tokenUsage := some { prompt := 10, completion := 20, total := 30 },
    processingTime := some 1200, deliveryStatus := some .sent,
    deliveredAt := some "2024-01-01T01:05:00Z" }

def sampleLLMResponse : LLMResponse :=
  { content := "Hello", tokenUsage := { prompt := 1, completion := 2, total := 3 },
    model := "gpt-5-nano", processingTime := 42 }

def timeoutThrown : Thrown :=
  .obj (some "timeout") (some "Network error: fetch failed") none

def invalidRequestThrown : Thrown :=
  .obj (some "invalid_request") (some "GPT-5 API error: 400") none

def disabledCfg : EmailServiceConfig :=
  { enabled := false, testMode := false, resendInit := false,
    fromEmail := "amara@example.com", fromName := "Amara QUO",
    allowedDomains := [], blockedDomains := ["noreply", "no-reply", "donotreply"] }

def sampleView : ProcessedEmailView :=
  { record := sampleRecord, status := .completed, processedAt := none, error := none,
    response := some "resp", category := none, tokenUsage := none,
    processingTime := none, deliveryStatus := none, deliveredAt := none }

/-! ### Helper lemmas -/

theorem updateEmailStatus_statusData (kv : EmailKV) (status : EmailStatus)
    (md : UpdateMetadata) (now : String) :
    (updateEmailStatus kv status md now).statusData
      = some { status := some status
               processedAt := md.processedAt <|> (kv.statusData.getD {}).processedAt
               error := md.error <|> (kv.statusData.getD {}).error
               response := md.response <|> (kv.statusData.getD {}).response
               category := md.category <|> (kv.statusData.getD {}).category
               tokenUsage := md.tokenUsage <|> (kv.statusData.getD {}).tokenUsage
               processingTime :=
                 md.processingTime <|> (kv.statusData.getD {}).processingTime
               deliveryStatus :=
                 md.deliveryStatus <|> (kv.statusData.getD {}).deliveryStatus
               deliveredAt := md.deliveredAt <|> (kv.statusData.getD {}).deliveredAt } := by
  obtain ⟨me, mr, mc, mp, mt, mpt, mds, mda⟩ := md
  unfold updateEmailStatus
  cases mt <;> cases mr <;> dsimp only <;> split_ifs <;> rfl

theorem updateEmailStatus_responseKey (kv : EmailKV) (status : EmailStatus)
    (md : UpdateMetadata) (now : String) :
    (updateEmailStatus kv status md now).responseKey
      = (match md.response with
         | none => kv.responseKey
         | some r => if r = "" then none else some r) := by
  obtain ⟨me, mr, mc, mp, mt, mpt, mds, mda⟩ := md
  unfold updateEmailStatus
  cases mt <;> cases mr <;> dsimp only <;> split_ifs <;> rfl

theorem shouldRetry_false_iff (e : Thrown) :
    shouldRetry e = false ↔ thrownCode e = some "invalid_request" := by
  cases e with
  | str s => simp [shouldRetry, thrownCode]
  | obj code msg errField =>
    cases code with
    | none => simp [shouldRetry, thrownCode]
    | some c =>
      simp only [shouldRetry, thrownCode, Option.some.injEq]
      by_cases hc : c = ""
      · subst hc
        simp
      · rw [if_neg hc]
        simp

theorem tokenize_cons_plain (line : String) (rest : List String)
    (h1 : isBlankLine line = false) (h2 : isH2 line = false)
    (h3 : isH3 line = false) (h4 : isUlItem line = false)
    (h5 : isOlItem line = false) (h6 : isTableLine line = false)
    (h7 : isHrLine line = false) :
    tokenize (line :: rest) = Block.p line :: tokenize rest := by
  show tokenizeF (line :: rest).length (line :: rest) = _
  rw [List.length_cons, tokenizeF]
  simp only [h1, h2, h3, h4, h5, h6, h7, Bool.false_eq_true, if_false]
  rfl

theorem tokenize_cons_table_nosep (line : String) (rest : List String)
    (h1 : isBlankLine line = false) (h2 : isH2 line = false)
    (h3 : isH3 line = false) (h4 : isUlItem line = false)
    (h5 : isOlItem line = false) (h6 : isTableLine line = true)
    (hsep : sepValid (rest.headD "") = false) :
    tokenize (line :: rest) = Block.p line :: tokenize rest := by
  show tokenizeF (line :: rest).length (line :: rest) = _
  rw [List.length_cons, tokenizeF]
  simp only [h1, h2, h3, h4, h5, h6, hsep, Bool.false_eq_true, if_false, if_true]
  rfl

theorem isTableLine_shape {l : String} (h : isTableLine l = true) :
    ∃ t, l.data.dropWhile jsSpace = '|' :: t := by
  unfold isTableLine at h
  cases hd : l.data.dropWhile jsSpace with
  | nil => rw [hd] at h; simp at h
  | cons c t =>
    rw [hd] at h
    simp only [List.head?_cons, beq_iff_eq, Option.some.injEq] at h
    exact ⟨t, by rw [h]⟩

theorem isTableLine_not_blank {l : String} (h : isTableLine l = true) :
    isBlankLine l = false := by
  obtain ⟨t, ht⟩ := isTableLine_shape h
  cases hb : isBlankLine l
  · rfl
  · exfalso
    have hall := List.all_eq_true.mp hb
    have hnil : l.data.dropWhile jsSpace = [] :=
      List.dropWhile_eq_nil_iff.mpr (fun x hx => hall x hx)
    rw [hnil] at ht
    exact absurd ht (by simp)

theorem isTableLine_not_h2 {l : String} (h : isTableLine l = true) :
    isH2 l = false := by
  obtain ⟨t, ht⟩ := isTableLine_shape h
  cases hb : isH2 l
  · rfl
  · exfalso
    unfold isH2 at hb
    split at hb
    case _ c tl heq =>
      rw [heq, List.dropWhile_cons] at ht
      rw [if_neg (by decide)] at ht
      injection ht with ht1 ht2
      exact absurd ht1 (by decide)
    case _ => simp at hb

theorem isTableLine_not_h3 {l : String} (h : isTableLine l = true) :
    isH3 l = false := by
  obtain ⟨t, ht⟩ := isTableLine_shape h
  cases hb : isH3 l
  · rfl
  · exfalso
    unfold isH3 at hb
    split at hb
    case _ c tl heq =>
      rw [heq, List.dropWhile_cons] at ht
      rw [if_neg (by decide)] at ht
      injection ht with ht1 ht2
      exact absurd ht1 (by decide)
    case _ => simp at hb

theorem isTableLine_not_ul {l : String} (h : isTableLine l = true) :
    isUlItem l = false := by
  obtain ⟨t, ht⟩ := isTableLine_shape h
  unfold isUlItem
  rw [ht]
  cases t with
  | nil => rfl
  | cons d t2 => rfl

theorem isTableLine_not_ol {l : String} (h : isTableLine l = true) :
    isOlItem l = false := by
  obtain ⟨t, ht⟩ := isTableLine_shape h
  unfold isOlItem
  rw [ht]
  rfl

theorem escChar_amp : escChar '&' = ['&'] := rfl

theorem escChar_not_special {c : Char} (h : special c = false) : escChar c = [c] := by
  unfold special at h
  simp only [Bool.or_eq_false_iff, decide_eq_false_iff_not] at h
  unfold escChar
  rw [if_neg h.1.1.1, if_neg h.1.1.2, if_neg h.1.2, if_neg h.2]

theorem escapeHtmlL_nil : escapeHtmlL [] = [] := rfl

theorem escapeHtmlL_cons_notamp {c : Char} {rest : List Char} (h : c ≠ '&') :
    escapeHtmlL (c :: rest) = escChar c ++ escapeHtmlL rest := by
  have ha : escAmp (c :: rest) = c :: escAmp rest := by
    rw [escAmp, if_neg h]
  show escRest (escAmp (c :: rest)) = escChar c ++ escRest (escAmp rest)
  rw [ha]
  rfl

theorem escapeHtmlL_amp_ent {rest : List Char} (h : entAfter rest = true) :
    escapeHtmlL ('&' :: rest) = '&' :: escapeHtmlL rest := by
  have ha : escAmp ('&' :: rest) = '&' :: escAmp rest := by
    rw [escAmp, if_pos rfl, if_pos h]
  show escRest (escAmp ('&' :: rest)) = '&' :: escRest (escAmp rest)
  rw [ha]
  rfl

theorem escapeHtmlL_amp_noent {rest : List Char} (h : entAfter rest = false) :
    escapeHtmlL ('&' :: rest)
      = '&' :: 'a' :: 'm' :: 'p' :: ';' :: escapeHtmlL rest := by
  have ha : escAmp ('&' :: rest)
      = '&' :: 'a' :: 'm' :: 'p' :: ';' :: escAmp rest := by
    rw [escAmp, if_pos rfl, if_neg (by rw [h]; exact Bool.false_ne_true)]
  show escRest (escAmp ('&' :: rest))
      = '&' :: 'a' :: 'm' :: 'p' :: ';' :: escRest (escAmp rest)
  rw [ha]
  rfl

theorem entAfter_amp (T : List Char) : entAfter ('a' :: 'm' :: 'p' :: ';' :: T) = true := rfl

theorem goodB_amp_entity (T : List Char) :
    goodB ('&' :: 'a' :: 'm' :: 'p' :: ';' :: T) = goodB T := rfl

theorem goodB_lt_entity (T : List Char) :
    goodB ('&' :: 'l' :: 't' :: ';' :: T) = goodB T := rfl

theorem goodB_gt_entity (T : List Char) :
    goodB ('&' :: 'g' :: 't' :: ';' :: T) = goodB T := rfl

theorem goodB_quot_entity (T : List Char) :
    goodB ('&' :: 'q' :: 'u' :: 'o' :: 't' :: ';' :: T) = goodB T := rfl

theorem goodB_num_entity (T : List Char) :
    goodB ('&' :: '#' :: '3' :: '9' :: ';' :: T) = goodB T := rfl

theorem goodB_escAmp_id : ∀ l : List Char, goodB l = true → escAmp l = l := by
  intro l
  induction l with
  | nil => intro _; rfl
  | cons c rest ih =>
    intro h
    unfold goodB at h
    by_cases hc : c = '&'
    · subst hc
      rw [if_pos rfl, Bool.and_eq_true] at h
      unfold escAmp
      rw [if_pos rfl, if_pos h.1, ih h.2]
    · rw [if_neg hc, Bool.and_eq_true] at h
      unfold escAmp
      rw [if_neg hc, ih h.2]

theorem goodB_escRest_id : ∀ l : List Char, goodB l = true → escRest l = l := by
  intro l
  induction l with
  | nil => intro _; rfl
  | cons c rest ih =>
    intro h
    unfold goodB at h
    by_cases hc : c = '&'
    · subst hc
      rw [if_pos rfl, Bool.and_eq_true] at h
      unfold escRest
      rw [escChar_amp, ih h.2]
      rfl
    · rw [if_neg hc, Bool.and_eq_true] at h
      have hs : special c = false := by
        cases hsp : special c
        · rfl
        · rw [hsp] at h
          exact absurd h.1 (by decide)
      unfold escRest
      rw [escChar_not_special hs, ih h.2]
      rfl

theorem letterInert : ∀ c : Char, isAsciiLetter c = true →
    c ≠ '&' ∧ escChar c = [c] := by
  intro c h
  have hs : special c = false := by
    cases hsp : special c
    · rfl
    · exfalso
      unfold special at hsp
      simp only [Bool.or_eq_true, decide_eq_true_eq] at hsp
      rcases hsp with ((rfl | rfl) | rfl) | rfl <;> exact absurd h (by decide)
  refine ⟨?_, escChar_not_special hs⟩
  rintro rfl
  exact absurd h (by decide)

theorem digitInert : ∀ c : Char, isDigitChar c = true →
    c ≠ '&' ∧ escChar c = [c] := by
  intro c h
  have hs : special c = false := by
    cases hsp : special c
    · rfl
    · exfalso
      unfold special at hsp
      simp only [Bool.or_eq_true, decide_eq_true_eq] at hsp
      rcases hsp with ((rfl | rfl) | rfl) | rfl <;> exact absurd h (by decide)
  refine ⟨?_, escChar_not_special hs⟩
  rintro rfl
  exact absurd h (by decide)

theorem runThenSemi_escapeHtmlL (p : Char → Bool)
    (hp : ∀ c : Char, p c = true → c ≠ '&' ∧ escChar c = [c]) :
    ∀ l : List Char, runThenSemi p l = true →
      runThenSemi p (escapeHtmlL l) = true := by
  intro l
  induction l with
  | nil => intro h; simp [runThenSemi] at h
  | cons c rest ih =>
    intro h
    rw [runThenSemi, Bool.and_eq_true] at h
    obtain ⟨hpc, hrest⟩ := h
    obtain ⟨hne, hesc⟩ := hp c hpc
    rw [escapeHtmlL_cons_notamp hne, hesc]
    show runThenSemi p (c :: escapeHtmlL rest) = true
    rw [runThenSemi, Bool.and_eq_true]
    refine ⟨hpc, ?_⟩
    rw [Bool.or_eq_true] at hrest
    rcases hrest with hh | hr
    · cases rest with
      | nil => exact absurd hh (by decide)
      | cons d r2 =>
        simp only [List.head?_cons, beq_iff_eq, Option.some.injEq] at hh
        subst hh
        rw [escapeHtmlL_cons_notamp (by decide),
            show escChar ';' = [';'] from rfl]
        rw [Bool.or_eq_true]
        exact Or.inl rfl
    · rw [Bool.or_eq_true]
      exact Or.inr (ih hr)

theorem entAfter_escapeHtmlL {l : List Char} (h : entAfter l = true) :
    entAfter (escapeHtmlL l) = true := by
  cases l with
  | nil => exact absurd h (by decide)
  | cons c rest =>
    rw [entAfter] at h
    by_cases hc : c = '#'
    · subst hc
      rw [if_pos rfl] at h
      rw [escapeHtmlL_cons_notamp (by decide), show escChar '#' = ['#'] from rfl]
      show entAfter ('#' :: escapeHtmlL rest) = true
      rw [entAfter, if_pos rfl]
      exact runThenSemi_escapeHtmlL isDigitChar digitInert rest h
    · rw [if_neg hc] at h
      have hpc : isAsciiLetter c = true := by
        rw [runThenSemi, Bool.and_eq_true] at h
        exact h.1
      obtain ⟨hne, hesc⟩ := letterInert c hpc
      have hmain := runThenSemi_escapeHtmlL isAsciiLetter letterInert (c :: rest) h
      rw [escapeHtmlL_cons_notamp hne, hesc] at hmain ⊢
      show entAfter (c :: escapeHtmlL rest) = true
      rw [entAfter, if_neg hc]
      exact hmain

theorem goodB_escapeHtmlL : ∀ l : List Char, goodB (escapeHtmlL l) = true := by
  intro l
  induction l with
  | nil => rfl
  | cons c rest ih =>
    by_cases hc : c = '&'
    · subst hc
      cases he : entAfter rest
      · rw [escapeHtmlL_amp_noent he, goodB_amp_entity]
        exact ih
      · rw [escapeHtmlL_amp_ent he]
        show goodB ('&' :: escapeHtmlL rest) = true
        rw [goodB, if_pos rfl, Bool.and_eq_true]
        exact ⟨entAfter_escapeHtmlL he, ih⟩
    · rw [escapeHtmlL_cons_notamp hc]
      cases hs : special c
      · rw [escChar_not_special hs]
        show goodB (c :: escapeHtmlL rest) = true
        rw [goodB, if_neg hc, Bool.and_eq_true]
        exact ⟨by rw [hs]; rfl, ih⟩
      · unfold special at hs
        simp only [Bool.or_eq_true, decide_eq_true_eq] at hs
        rcases hs with ((rfl | rfl) | rfl) | rfl
        · rw [show escChar '<' = ['&', 'l', 't', ';'] from rfl]
          show goodB ('&' :: 'l' :: 't' :: ';' :: escapeHtmlL rest) = true
          rw [goodB_lt_entity]
          exact ih
        · rw [show escChar '>' = ['&', 'g', 't', ';'] from rfl]
          show goodB ('&' :: 'g' :: 't' :: ';' :: escapeHtmlL rest) = true
          rw [goodB_gt_entity]
          exact ih
        · rw [show escChar '"' = ['&', 'q', 'u', 'o', 't', ';'] from rfl]
          show goodB ('&' :: 'q' :: 'u' :: 'o' :: 't' :: ';' :: escapeHtmlL rest) = true
          rw [goodB_quot_entity]
          exact ih
        · rw [show escChar '\x27' = ['&', '#', '3', '9', ';'] from rfl]
          show goodB ('&' :: '#' :: '3' :: '9' :: ';' :: escapeHtmlL rest) = true
          rw [goodB_num_entity]
          exact ih

theorem escapeHtmlL_idem (l : List Char) :
    escapeHtmlL (escapeHtmlL l) = escapeHtmlL l := by
  have hg := goodB_escapeHtmlL l
  show escRest (escAmp (escapeHtmlL l)) = escapeHtmlL l
  rw [goodB_escAmp_id _ hg, goodB_escRest_id _ hg]

/-! ### Claims -/

set_option maxRecDepth 100000

/-- Claim C1: the spec demands that re-processing (retry of a `failed`/`manual-review`
record, reset/rerun of a `completed` record) resets the stored state to `pending` and
clears the prior error, response and delivery fields. The code does reset the status
to `pending`, but passes the fields to clear as `undefined`, which
`updateEmailStatus` skips (`!== undefined` guards), and the separate response key is
deleted only for a defined falsy response — so every stale field survives: after the
retry reset and after the reset route the stored state keeps the old error, response
and delivery data, and after a full retry whose LLM call fails again the old response
still coexists with the new `failed` state. -/
theorem c1_reset_leaves_stale_fields :
    (updateEmailStatus staleFailedKV .pending { error := none } "t1").statusData
        = some { staleFailedSD with status := some EmailStatus.pending }
    ∧ (updateEmailStatus staleFailedKV .pending { error := none } "t1").responseKey
        = some "old reply"
    ∧ (resetEmailRoute staleCompletedKV "t1").1.statusData
        = some { staleCompletedSD with status := some EmailStatus.pending }
    ∧ (resetEmailRoute staleCompletedKV "t1").1.responseKey = some "old reply"
    ∧ ((retryEmail staleFailedKV (Except.error timeoutThrown) "t2").1.statusData.map
        (fun d => d.response)) = some (some "old reply")
    ∧ (retryEmail staleFailedKV (Except.error timeoutThrown) "t2").1.responseKey
        = some "old reply" := by
  decide

/-- Claim C2: `retryEmail` on a record whose status is `pending`, `processing` or
`completed` signals an error (`Cannot retry email with status: …`) and performs no
store write: the store is returned unchanged. -/
theorem c2_retry_rejected_on_nonretryable_status :
    ∀ (kv : EmailKV) (em : ProcessedEmailView) (llm : Except Thrown LLMResponse)
      (now : String),
      getEmail kv = some em →
      (em.status = .pending ∨ em.status = .processing ∨ em.status = .completed) →
      retryEmail kv llm now
        = (kv, .error ("Cannot retry email with status: "
            ++ statusToString em.status)) := by
  intro kv em llm now hget hst
  unfold retryEmail
  rw [hget]
  dsimp only
  rcases hst with h | h | h <;> rw [h] <;>
    rw [if_pos ⟨by decide, by decide⟩]

theorem c2_witness :
    retryEmail staleCompletedKV (Except.ok sampleLLMResponse) "t2"
      = (staleCompletedKV,
         Except.error ("Cannot retry email with status: "
           ++ statusToString staleCompletedView.status)) :=
  c2_retry_rejected_on_nonretryable_status staleCompletedKV staleCompletedView
    (Except.ok sampleLLMResponse) "t2" (by decide) (Or.inr (Or.inr (by decide)))

/-- Claim C3: a classified LLM failure surfaced to `processEmail` persists status
`manual-review` exactly when its error code is `invalid_request`, and `failed` for
every other code and for uncoded errors; in both cases the extracted error message is
written into the stored status object. -/
theorem c3_failure_status_classification :
    ∀ (kv : EmailKV) (e : Thrown) (now : String),
      getEmail kv ≠ none →
      (processEmail kv (Except.error e) now).2.status
        = (if thrownCode e = some "invalid_request" then EmailStatus.manualReview
           else EmailStatus.failed)
      ∧ ((processEmail kv (Except.error e) now).1.statusData.map (fun d => d.status))
        = some (some (if thrownCode e = some "invalid_request"
            then EmailStatus.manualReview else EmailStatus.failed))
      ∧ ((processEmail kv (Except.error e) now).1.statusData.map (fun d => d.error))
        = some (some (getErrorMessage e)) := by
  intro kv e now h
  obtain ⟨em, hem⟩ := Option.ne_none_iff_exists'.mp h
  have hstatus : (if shouldRetry e = true then EmailStatus.failed
        else EmailStatus.manualReview)
      = (if thrownCode e = some "invalid_request" then EmailStatus.manualReview
         else EmailStatus.failed) := by
    by_cases hc : thrownCode e = some "invalid_request"
    · rw [if_pos hc, (shouldRetry_false_iff e).mpr hc]
      simp
    · have ht : shouldRetry e = true := by
        cases hsr : shouldRetry e
        · exact absurd ((shouldRetry_false_iff e).mp hsr) hc
        · rfl
      rw [if_neg hc, ht, if_pos rfl]
  unfold processEmail
  rw [hem]
  dsimp only
  refine ⟨hstatus, ?_, ?_⟩
  · rw [updateEmailStatus_statusData]
    dsimp only [Option.map_some']
    rw [hstatus]
  · rw [updateEmailStatus_statusData]
    dsimp only [Option.map_some']
    rfl

theorem c3_witness :
    (processEmail staleFailedKV (Except.error invalidRequestThrown) "t3").2.status
      = (if thrownCode invalidRequestThrown = some "invalid_request"
         then EmailStatus.manualReview else EmailStatus.failed)
    ∧ ((processEmail staleFailedKV (Except.error invalidRequestThrown) "t3").1.statusData.map
        (fun d => d.status))
      = some (some (if thrownCode invalidRequestThrown = some "invalid_request"
          then EmailStatus.manualReview else EmailStatus.failed))
    ∧ ((processEmail staleFailedKV (Except.error invalidRequestThrown) "t3").1.statusData.map
        (fun d => d.error))
      = some (some (getErrorMessage invalidRequestThrown)) :=
  c3_failure_status_classification staleFailedKV invalidRequestThrown "t3" (by decide)

/-- Claim C4, counterexample: with the email-sending feature flag disabled the send
operation does not report success — it returns `success := false` with the error
`Email sending is disabled`, refuting the claimed no-op success at a concrete
configuration and record. -/
theorem c4_counterexample :
    sendSuccess (sendResponse disabledCfg sampleView "Hello" none "t" "0") = false
    ∧ sendResponse disabledCfg sampleView "Hello" none "t" "0"
        = SendDecision.noSend ⟨false, none, some "Email sending is disabled", none⟩ := by
  decide

/-- Claim C4, amended: when the email-sending feature flag is disabled, the send
operation is a no-op — it performs no transmission — but reports a failure result
with error `Email sending is disabled` (not a success). -/
theorem c4_disabled_send_noop_failure :
    ∀ (cfg : EmailServiceConfig) (email : ProcessedEmailView) (content : String)
      (tmpl : Option EmailTemplate) (nowIso nowMs : String),
      cfg.enabled = false →
      sendResponse cfg email content tmpl nowIso nowMs
        = SendDecision.noSend ⟨false, none, some "Email sending is disabled", none⟩ := by
  intro cfg email content tmpl nowIso nowMs h
  unfold sendResponse
  rw [if_pos (by rw [h]; exact Bool.false_ne_true)]

theorem c4_witness :
    sendResponse disabledCfg sampleView "Hello" none "t" "0"
      = SendDecision.noSend ⟨false, none, some "Email sending is disabled", none⟩ :=
  c4_disabled_send_noop_failure disabledCfg sampleView "Hello" none "t" "0" rfl

/-- Claim C5, counterexample: contiguous plain paragraph lines are not accumulated
into one space-joined paragraph — `"a\nb"` tokenizes into two separate paragraph
blocks, not the single block `p "a b"` the claim predicts; and a line beginning with
`<` is not passed through unmodified: rendering `"<p>hi"` wraps it in a paragraph
whose text is HTML-escaped, and the rendered output nowhere contains the raw
`<p>hi`. -/
theorem c5_counterexample :
    tokenize (splitLines "a\nb") = [Block.p "a", Block.p "b"]
    ∧ tokenize (splitLines "a\nb") ≠ [Block.p "a b"]
    ∧ renderToEmailHtml defaultRenderOptions "<p>hi"
        = paragraphHtml defaultRenderOptions "<p>hi"
    ∧ listContains (renderToEmailHtml defaultRenderOptions "<p>hi").data
        "<p>hi".data = false
    ∧ listContains (renderToEmailHtml defaultRenderOptions "<p>hi").data
        "&lt;p&gt;hi".data = true := by
  decide

/-- Claim C5, amended: every non-blank line that is not a heading, list item, table
row or rule — including a line beginning with `<` — becomes its own paragraph block
(no accumulation or space-joining of contiguous lines), and a paragraph line's text
is HTML-escaped by the inline processor rather than passed through unmodified. -/
theorem c5_each_plain_line_own_paragraph :
    (∀ (line : String) (rest : List String),
      isBlankLine line = false → isH2 line = false → isH3 line = false →
      isUlItem line = false → isOlItem line = false → isTableLine line = false →
      isHrLine line = false →
      tokenize (line :: rest) = Block.p line :: tokenize rest)
    ∧ processInline "<p>hi" = "&lt;p&gt;hi" := by
  refine ⟨?_, by decide⟩
  intro line rest h1 h2 h3 h4 h5 h6 h7
  exact tokenize_cons_plain line rest h1 h2 h3 h4 h5 h6 h7

theorem c5_witness :
    tokenize ["<p>hi", "x"] = Block.p "<p>hi" :: tokenize ["x"]
    ∧ processInline "<p>hi" = "&lt;p&gt;hi" :=
  ⟨c5_each_plain_line_own_paragraph.1 "<p>hi" ["x"] (by decide) (by decide)
    (by decide) (by decide) (by decide) (by decide) (by decide),
   c5_each_plain_line_own_paragraph.2⟩

/-- Claim C6, counterexample: rendering the empty markdown string does not produce
the empty HTML string. -/
theorem c6_counterexample :
    renderToEmailHtml defaultRenderOptions "" ≠ "" := by
  decide

/-- Claim C6, amended: rendering the empty string produces a single spacing
paragraph block (`&nbsp;` in a presentation-table paragraph), not the empty string;
rendering is a total function of the input (no exception), which holds by
construction of the embedding. -/
theorem c6_empty_input_spacing_paragraph :
    renderToEmailHtml defaultRenderOptions "" = paragraphHtml defaultRenderOptions ""
    ∧ listContains (renderToEmailHtml defaultRenderOptions "").data
        "&nbsp;".data = true
    ∧ renderToEmailHtml defaultRenderOptions "" ≠ "" := by
  refine ⟨by decide, by decide, by decide⟩

/-- Claim C7: a pipe line whose following line is not a valid separator
(dashes/colons/pipes/whitespace, nonempty) never yields a table block — the header
line becomes a plain paragraph block and the following lines are re-examined
unconsumed; in particular `| A | B |` directly followed by `| 1 | 2 |` tokenizes to
two paragraphs and no table. -/
theorem c7_table_requires_separator :
    (∀ (line : String) (rest : List String),
      isTableLine line = true → sepValid (rest.headD "") = false →
      tokenize (line :: rest) = Block.p line :: tokenize rest)
    ∧ tokenize (splitLines "| A | B |\n| 1 | 2 |")
        = [Block.p "| A | B |", Block.p "| 1 | 2 |"] := by
  refine ⟨?_, by decide⟩
  intro line rest ht hsep
  exact tokenize_cons_table_nosep line rest (isTableLine_not_blank ht)
    (isTableLine_not_h2 ht) (isTableLine_not_h3 ht) (isTableLine_not_ul ht)
    (isTableLine_not_ol ht) ht hsep

theorem c7_witness :
    tokenize ["| A | B |", "| 1 | 2 |"]
      = Block.p "| A | B |" :: tokenize ["| 1 | 2 |"] :=
  c7_table_requires_separator.1 "| A | B |" ["| 1 | 2 |"] (by decide) (by decide)

/-- Claim C8, counterexample: the claim that the output never contains `&amp;amp;`
for any input containing a valid entity fails on the input `&amp;amp;` itself: it
contains the valid entity `&amp;`, is left unchanged by the escape, and therefore
the output does contain `&amp;amp;`. -/
theorem c8_counterexample :
    listContains "&amp;amp;".data "&amp;".data = true
    ∧ escapeHtml "&amp;amp;" = "&amp;amp;"
    ∧ listContains (escapeHtml "&amp;amp;").data "&amp;amp;".data = true := by
  decide

/-- Claim C8, amended: the ampersand-aware escape never double-encodes — it is
idempotent (`escapeHtml (escapeHtml s) = escapeHtml s` for every string, so a second
pass never creates `&amp;amp;`), it leaves an already-valid entity such as `&amp;`
unchanged, and it escapes each raw `&`, `<`, `>`, `"`, `'` exactly once. -/
theorem c8_escape_idempotent_no_double_encode :
    (∀ s : String, escapeHtml (escapeHtml s) = escapeHtml s)
    ∧ escapeHtml "&amp;" = "&amp;"
    ∧ escapeHtml "&" = "&amp;"
    ∧ escapeHtml "<" = "&lt;"
    ∧ escapeHtml ">" = "&gt;"
    ∧ escapeHtml "\"" = "&quot;"
    ∧ escapeHtml (String.mk ['\x27']) = "&#39;" := by
  refine ⟨?_, by decide, by decide, by decide, by decide, by decide, by decide⟩
  intro s
  show String.mk (escapeHtmlL (String.mk (escapeHtmlL s.data)).data)
      = String.mk (escapeHtmlL s.data)
  rw [show (String.mk (escapeHtmlL s.data)).data = escapeHtmlL s.data from rfl,
      escapeHtmlL_idem]

/-- Claim C9, counterexample: the plain-text derivation does not flatten pipe-table
rows to tab-separated rows — `| a | b |` is left exactly as it is, with no tab
character in the output. -/
theorem c9_counterexample :
    plainTextTransform "| a | b |" = "| a | b |"
    ∧ listContains (plainTextTransform "| a | b |").data "\t".data = false
    ∧ plainTextTransform "| a | b |" ≠ "a\tb" := by
  decide

/-- Claim C9, amended: the Email Template Wrapper derives the plain-text counterpart
from the original markdown (not from the rendered HTML) by stripping bold and italic
emphasis markers and converting bullet list markers to a literal bullet character;
pipe-table rows are left unchanged as pipe rows, not flattened to tab-separated
rows. -/
theorem c9_plaintext_from_markdown :
    plainTextTransform "**bold** and *ital*" = "bold and ital"
    ∧ plainTextTransform "* item one\n* item two" = "• item one\n• item two"
    ∧ plainTextTransform "- dash item" = "• dash item"
    ∧ plainTextTransform "| a | b |" = "| a | b |"
    ∧ wrapPlainText "**bold** | x | y |" none "now"
      = getPlainTextHeader none ++ "\n\n" ++ "bold | x | y |"
        ++ "\n---\nAutomated response from Amara QUO Freight Intelligence\nnow" := by
  decide

/-- Claim C10: in `updateEmailStatus`, every status-object field whose metadata value
is undefined retains its previously stored value (so passing a field explicitly as
`undefined` clears nothing), and the separately-keyed response is deleted exactly
when the supplied response is defined and falsy (the empty string), kept unchanged
when the response is undefined, and overwritten when a nonempty response is
supplied. -/
theorem c10_metadata_frame :
    ∀ (kv : EmailKV) (st : EmailStatus) (md : UpdateMetadata) (now : String),
      (md.error = none →
        ((updateEmailStatus kv st md now).statusData.map (fun d => d.error))
          = some (kv.statusData.getD {}).error)
      ∧ (md.response = none →
        ((updateEmailStatus kv st md now).statusData.map (fun d => d.response))
          = some (kv.statusData.getD {}).response)
      ∧ (md.category = none →
        ((updateEmailStatus kv st md now).statusData.map (fun d => d.category))
          = some (kv.statusData.getD {}).category)
      ∧ (md.processedAt = none →
        ((updateEmailStatus kv st md now).statusData.map (fun d => d.processedAt))
          = some (kv.statusData.getD {}).processedAt)
      ∧ (md.tokenUsage = none →
        ((updateEmailStatus kv st md now).statusData.map (fun d => d.tokenUsage))
          = some (kv.statusData.getD {}).tokenUsage)
      ∧ (md.processingTime = none →
        ((updateEmailStatus kv st md now).statusData.map (fun d => d.processingTime))
          = some (kv.statusData.getD {}).processingTime)
      ∧ (md.deliveryStatus = none →
        ((updateEmailStatus kv st md now).statusData.map (fun d => d.deliveryStatus))
          = some (kv.statusData.getD {}).deliveryStatus)
      ∧ (md.deliveredAt = none →
        ((updateEmailStatus kv st md now).statusData.map (fun d => d.deliveredAt))
          = some (kv.statusData.getD {}).deliveredAt)
      ∧ (md.response = none →
          (updateEmailStatus kv st md now).responseKey = kv.responseKey)
      ∧ (md.response = some "" →
          (updateEmailStatus kv st md now).responseKey = none)
      ∧ (∀ r : String, md.response = some r → ¬r = "" →
          (updateEmailStatus kv st md now).responseKey = some r) := by
  intro kv st md now
  refine ⟨?_, ?_, ?_, ?_, ?_, ?_, ?_, ?_, ?_, ?_, ?_⟩
  · intro h
    rw [updateEmailStatus_statusData]
    dsimp only [Option.map_some']
    rw [h, Option.none_orElse]
  · intro h
    rw [updateEmailStatus_statusData]
    dsimp only [Option.map_some']
    rw [h, Option.none_orElse]
  · intro h
    rw [updateEmailStatus_statusData]
    dsimp only [Option.map_some']
    rw [h, Option.none_orElse]
  · intro h
    rw [updateEmailStatus_statusData]
    dsimp only [Option.map_some']
    rw [h, Option.none_orElse]
  · intro h
    rw [updateEmailStatus_statusData]
    dsimp only [Option.map_some']
    rw [h, Option.none_orElse]
  · intro h
    rw [updateEmailStatus_statusData]
    dsimp only [Option.map_some']
    rw [h, Option.none_orElse]
  · intro h
    rw [updateEmailStatus_statusData]
    dsimp only [Option.map_some']
    rw [h, Option.none_orElse]
  · intro h
    rw [updateEmailStatus_statusData]
    dsimp only [Option.map_some']
    rw [h, Option.none_orElse]
  · intro h
    rw [updateEmailStatus_responseKey, h]
  · intro h
    rw [updateEmailStatus_responseKey, h]
    dsimp only
    rw [if_pos rfl]
  · intro r h hr
    rw [updateEmailStatus_responseKey, h]
    dsimp only
    rw [if_neg hr]

theorem c10_witness :
    ((updateEmailStatus staleFailedKV .pending {} "t").statusData.map
        (fun d => d.error))
      = some (staleFailedKV.statusData.getD {}).error
    ∧ (updateEmailStatus staleFailedKV .pending {} "t").responseKey
      = staleFailedKV.responseKey
    ∧ (updateEmailStatus staleFailedKV .pending { response := some "" } "t").responseKey
      = none
    ∧ (updateEmailStatus staleFailedKV .pending { response := some "new" } "t").responseKey
      = some "new" := by
  refine ⟨(c10_metadata_frame staleFailedKV .pending {} "t").1 rfl,
    ((c10_metadata_frame staleFailedKV .pending {} "t").2.2.2.2.2.2.2.2).1 rfl,
    ((c10_metadata_frame staleFailedKV .pending { response := some "" } "t").2.2.2.2.2.2.2.2).2.1 rfl,
    ((c10_metadata_frame staleFailedKV .pending { response := some "new" } "t").2.2.2.2.2.2.2.2).2.2 "new" rfl (by decide)⟩
